import Mathlib

/-!
Shallow embedding of the webhook-receptionist Lambda
(src/lambda/python/lambda_function.py) and proofs checking the frozen
claims of the specification against it.

Modelling conventions:
* Python strings that undergo character-level processing (email addresses,
  glob patterns, sender domains) are modelled as lists of Unicode code
  points (`List Nat`); `codes` converts a Lean string literal.
  Code point 42 is the asterisk, 63 the question mark, 64 the at sign.
* `str.lower()` is modelled for the ASCII range by `asciiLower`.
* `fnmatch.fnmatch` (the stdlib glob matcher used by `_matches_pattern`)
  is modelled for patterns built from the asterisk, the question mark and
  literal characters, which are the only constructs the routing
  configuration uses (the spec: no character classes required).
* Python dicts with optional keys become structures with `Option` fields;
  Python dicts preserving insertion order become association lists.
-/

namespace WebhookReceptionist

/-- ASCII lowercasing of one code point, modelling `str.lower()` on the
ASCII range (uppercase letters are 65..90, shifted by 32). -/
def asciiLower (c : Nat) : Nat :=
  if 65 ≤ c ∧ c ≤ 90 then c + 32 else c

/-- Lowercasing of a whole string (list of code points). -/
def lowerStr (s : List Nat) : List Nat :=
  s.map asciiLower

/-- Code points of a Lean string literal, for concrete examples. -/
def codes (s : String) : List Nat :=
  s.data.map Char.toNat

/-- Glob-pattern tokens: the asterisk, the question mark, and literal
code points.  `fnmatch.translate` tokenizes a pattern exactly this way
for patterns without bracket classes. -/
inductive GTok
  | star
  | anyChar
  | lit (c : Nat)
deriving DecidableEq

/-- Tokenization of a glob pattern (code point 42 is the asterisk,
63 the question mark). -/
def parseGlob : List Nat → List GTok
  | [] => []
  | 42 :: ps => .star :: parseGlob ps
  | 63 :: ps => .anyChar :: parseGlob ps
  | c :: ps => .lit c :: parseGlob ps

/-- Glob matching of a token list against a string: the asterisk matches
any run of zero or more code points (the rest of the pattern must match
some suffix of the string), the question mark exactly one code point, a
literal matches itself. -/
def globTokMatch : List GTok → List Nat → Bool
  | [], s => s.isEmpty
  | .star :: ps, s => s.tails.any fun s2 => globTokMatch ps s2
  | .anyChar :: ps, s =>
      match s with
      | [] => false
      | _ :: s2 => globTokMatch ps s2
  | .lit c :: ps, s =>
      match s with
      | [] => false
      | d :: s2 => (c == d) && globTokMatch ps s2

/-- Model of `fnmatch.fnmatch(name, pattern)` for patterns without
bracket classes (the argument order follows the Python function). -/
def fnmatchFn (name pat : List Nat) : Bool :=
  globTokMatch (parseGlob pat) name

/-- Model of `DomainConfigManager._matches_pattern` (lines 207-213):
a plain call to `fnmatch.fnmatch`; the try/except around it only turns a
raised error into False and raises nothing, so the embedding is total. -/
def matches_pattern (email pat : List Nat) : Bool :=
  fnmatchFn email pat

/-- The pattern match used for routing: every call site lowercases both
the address and the pattern before calling `_matches_pattern`
(lines 188, 266, 279), so the effective matcher is case-insensitive. -/
def matchesCI (email pat : List Nat) : Bool :=
  matches_pattern (lowerStr email) (lowerStr pat)

/-- Substring of a string after its last at sign (code point 64); empty
when the string contains no at sign, since no characters follow one.
This models the Python expression
`sender.split(chr64)[-1] if chr64 in sender else empty`. -/
def afterLastAt (s : List Nat) : List Nat :=
  if 64 ∈ s then ((s.reverse.takeWhile fun c => c != 64).reverse) else []

/-! ## Data model (the dataclasses and configuration dict shapes) -/

/-- Model of the `EmailMetadata` dataclass (lines 27-35).  The sender and
recipient addresses are code-point strings because they undergo
character-level matching; the remaining fields are opaque. -/
structure EmailMetadata where
  message_id : String
  timestamp : String
  from_address : List Nat
  to_addresses : List (List Nat)
  subject : String
  correlation_id : String
deriving DecidableEq

/-- Model of the `EmailContent` dataclass (lines 38-42). -/
structure EmailContent where
  text : String
  html : String
deriving DecidableEq

/-- Shape of a `retry_config` dict as stored in the routing document:
both keys may be absent. -/
structure RetryConfigDict where
  max_retries : Option Nat
  timeout_seconds : Option Nat
deriving DecidableEq

/-- Shape of a `filters` dict as stored in the routing document: every
key may be absent.  Sender patterns and blocked domains are code-point
strings. -/
structure FiltersDict where
  max_size_mb : Option Nat
  allowed_senders : Option (List (List Nat))
  blocked_senders : Option (List (List Nat))
  blocked_domains : Option (List (List Nat))
deriving DecidableEq

/-- A domain rule as stored in the routing document (the per-domain dict
under the `domains` key): only `webhook_url` is accessed with mandatory
bracket indexing by the code paths modelled here; the other keys may be
absent. -/
structure DomainRuleDict where
  webhook_url : String
  webhook_secret : Option String
  patterns : Option (List (List Nat))
  filters : Option FiltersDict
  payload_format : Option String
  custom_headers : Option (List (String × String))
  retry_config : Option RetryConfigDict
deriving DecidableEq

/-- Shape of the `global_settings` dict (an absent dict behaves like a
dict with all keys absent through the `.get` chains). -/
structure GlobalSettingsDict where
  default_max_retries : Option Nat
  default_timeout_seconds : Option Nat
  default_max_size_mb : Option Nat
deriving DecidableEq

/-- A routing configuration document: the `domains` dict is an ordered
association list because Python dicts preserve insertion order and the
code iterates them in document order. -/
structure ConfigDoc where
  domains : List (String × DomainRuleDict)
  global_settings : GlobalSettingsDict
deriving DecidableEq

/-- Model of the `DomainConfig` dataclass (lines 45-60), the resolved
route handed to filtering and delivery. -/
structure DomainConfig where
  webhook_url : String
  webhook_secret : String
  patterns : List (List Nat)
  filters : FiltersDict
  payload_format : String
  custom_headers : List (String × String)
  retry_config : RetryConfigDict
deriving DecidableEq

/-- Model of the `WebhookPayload` dataclass (lines 63-71). -/
structure WebhookPayload where
  event_type : String
  metadata : EmailMetadata
  content : EmailContent
deriving DecidableEq

/-- Model of the `WebhookDeliveryError` exception as raised on line 711:
its message carries the endpoint URL and the attempt count. -/
structure WebhookDeliveryError where
  url : String
  attempts : Nat
deriving DecidableEq

/-- An empty `filters` dict. -/
def emptyFilters : FiltersDict :=
  ⟨none, none, none, none⟩

/-- An empty `retry_config` dict. -/
def emptyRetry : RetryConfigDict :=
  ⟨none, none⟩

/-- An empty `global_settings` dict. -/
def emptyGlobals : GlobalSettingsDict :=
  ⟨none, none, none⟩

/-- The empty configuration document `(domains: empty, global_settings:
empty)` returned by the fallback paths. -/
def emptyDoc : ConfigDoc :=
  ⟨[], emptyGlobals⟩

/-! ## Field-level merge with global settings (lines 215-237)

The Python code performs `merged = domain_config.copy()` — a SHALLOW
copy — and then writes missing keys into `merged` inner dicts.  When the
original rule already carries a `retry_config` or `filters` dict, the
inner dict in `merged` is the very same object as in the cached rule, so
those writes also mutate the cached document.  The embedding therefore
returns both the merged dict and the post-state of the input rule. -/

/-- Fill of a `retry_config` dict with the global defaults (lines
223-227): a missing `max_retries` inherits `default_max_retries`
(default 3), a missing `timeout_seconds` inherits
`default_timeout_seconds` (default 30). -/
def fillRetry (gs : GlobalSettingsDict) (rc : RetryConfigDict) : RetryConfigDict :=
  ⟨some (rc.max_retries.getD (gs.default_max_retries.getD 3)),
   some (rc.timeout_seconds.getD (gs.default_timeout_seconds.getD 30))⟩

/-- Fill of a `filters` dict with the global defaults (lines 233-235):
a missing `max_size_mb` inherits `default_max_size_mb` (default 10). -/
def fillFilters (gs : GlobalSettingsDict) (f : FiltersDict) : FiltersDict :=
  { f with max_size_mb := some (f.max_size_mb.getD (gs.default_max_size_mb.getD 10)) }

/-- Model of `DomainConfigManager._merge_with_global_settings`
(lines 215-237).  First component: the merged dict the method returns.
Second component: the post-state of the input rule — because of the
shallow copy, an inner `retry_config` or `filters` dict that was present
in the rule is mutated in place by the fills, while an absent one is
replaced by a fresh dict visible only in the merged result. -/
def _merge_with_global_settings (gs : GlobalSettingsDict) (rule : DomainRuleDict) :
    DomainRuleDict × DomainRuleDict :=
  let rc := fillRetry gs (rule.retry_config.getD emptyRetry)
  let f := fillFilters gs (rule.filters.getD emptyFilters)
  ({ rule with retry_config := some rc, filters := some f },
   { rule with
      retry_config := rule.retry_config.map fun _ => rc,
      filters := rule.filters.map fun _ => f })

/-- Construction of the `DomainConfig` dataclass from a merged rule dict
(lines 194-202). -/
def mkDomainConfig (m : DomainRuleDict) : DomainConfig :=
  { webhook_url := m.webhook_url
    webhook_secret := m.webhook_secret.getD ""
    patterns := m.patterns.getD []
    filters := m.filters.getD emptyFilters
    payload_format := m.payload_format.getD "standard"
    custom_headers := m.custom_headers.getD []
    retry_config := m.retry_config.getD emptyRetry }

/-! ## Route resolution and sender filtering (lines 178-287) -/

/-- Model of the rule-scanning loop of
`DomainConfigManager.get_domain_config_for_email` (lines 184-205) over a
fixed domains list: rules are scanned in document order and the first
rule one of whose patterns matches the lowercased address wins; the
matched rule is merged with the global settings.  First component: the
resolved route (`none` when no rule matches).  Second component: the
post-state of the domains list — the matched rule may have been mutated
by the shallow-copy merge. -/
def get_domain_config_for_email (gs : GlobalSettingsDict) :
    List (String × DomainRuleDict) → List Nat →
      Option DomainConfig × List (String × DomainRuleDict)
  | [], _ => (none, [])
  | (name, rule) :: rest, email =>
      if (rule.patterns.getD []).any (fun p => matches_pattern (lowerStr email) (lowerStr p)) then
        let mp := _merge_with_global_settings gs rule
        (some (mkDomainConfig mp.1), (name, mp.2) :: rest)
      else
        let r := get_domain_config_for_email gs rest email
        (r.1, (name, rule) :: r.2)

/-- Model of `DomainConfigManager._passes_filters` (lines 252-287),
tracing the Python control flow: lowercase the sender; reject on the
first matching `blocked_senders` pattern; reject when the sender domain
is among the lowercased `blocked_domains`; when `allowed_senders` is not
exactly the singleton wildcard list, accept only if some allowed pattern
matches; otherwise accept. -/
def _passes_filters (metadata : EmailMetadata) (config : DomainConfig) : Bool :=
  let filters := config.filters
  let allowed_senders := filters.allowed_senders.getD [codes "*"]
  let blocked_senders := filters.blocked_senders.getD []
  let blocked_domains := filters.blocked_domains.getD []
  let sender := lowerStr metadata.from_address
  let sender_domain := afterLastAt sender
  if blocked_senders.any (fun p => matches_pattern sender (lowerStr p)) then false
  else if (blocked_domains.map lowerStr).any (fun d => sender_domain == d) then false
  else if allowed_senders != [codes "*"] then
    allowed_senders.any fun p => matches_pattern sender (lowerStr p)
  else true

/-- Model of the recipient loop of
`DomainConfigManager.is_email_allowed` (lines 239-250) over an explicit
recipient list: resolve each recipient in order; a recipient with no
matching rule, or whose matched rule fails the sender filters, is
skipped; the first resolved route that passes is returned. -/
def is_email_allowed_from (gs : GlobalSettingsDict)
    (domains : List (String × DomainRuleDict)) (metadata : EmailMetadata) :
    List (List Nat) → Option DomainConfig
  | [] => none
  | addr :: rest =>
      match (get_domain_config_for_email gs domains addr).1 with
      | some cfg =>
          if _passes_filters metadata cfg then some cfg
          else is_email_allowed_from gs domains metadata rest
      | none => is_email_allowed_from gs domains metadata rest

/-- Model of `DomainConfigManager.is_email_allowed` (lines 239-250). -/
def is_email_allowed (gs : GlobalSettingsDict)
    (domains : List (String × DomainRuleDict)) (metadata : EmailMetadata) :
    Option DomainConfig :=
  is_email_allowed_from gs domains metadata metadata.to_addresses

/-- Resolution and filtering of a single recipient: the route of the
first matching rule when it also passes the sender filters, `none`
otherwise.  Helper for stating the claims about `is_email_allowed`. -/
def resolve_and_filter (gs : GlobalSettingsDict)
    (domains : List (String × DomainRuleDict)) (metadata : EmailMetadata)
    (addr : List Nat) : Option DomainConfig :=
  match (get_domain_config_for_email gs domains addr).1 with
  | some cfg => if _passes_filters metadata cfg then some cfg else none
  | none => none

/-- Whether a rule dict matches an address: some of its patterns matches
the lowercased address (lines 185-188). -/
def ruleMatches (email : List Nat) (rule : DomainRuleDict) : Bool :=
  (rule.patterns.getD []).any fun p => matches_pattern (lowerStr email) (lowerStr p)

/-- The sender filter algorithm as worded by the specification, for the
refinement claim about `_passes_filters`: (1) reject when the sender
matches a `blocked_senders` pattern; (2) reject when the sender domain
— the substring after the last at sign — equals, case-insensitively, an
entry of `blocked_domains`; (3) accept when `allowed_senders` is exactly
the wildcard singleton; (4) otherwise accept exactly when the sender
matches some `allowed_senders` pattern.  Case-insensitive equality is
equality after lowercasing, and matching is the case-insensitive routing
matcher. -/
def passesFiltersSpec (sender : List Nat) (filters : FiltersDict) : Bool :=
  let allowed_senders := filters.allowed_senders.getD [codes "*"]
  let blocked_senders := filters.blocked_senders.getD []
  let blocked_domains := filters.blocked_domains.getD []
  if blocked_senders.any (fun p => matchesCI sender p) then false
  else if blocked_domains.any (fun d => lowerStr (afterLastAt sender) == lowerStr d) then false
  else if allowed_senders == [codes "*"] then true
  else allowed_senders.any fun p => matchesCI sender p

/-! ## Configuration loading and caching (lines 87-176) -/

/-- The legacy environment settings read by `_load_config_from_env`
(lines 123-157), already parsed: the module-level `Config` class parses
the numeric variables at import time, so by the time `get_config` runs
they are plain integers. -/
structure EnvConfig where
  domain_name : String
  target_webhook_url : String
  webhook_secret : String
  allowed_domains : String
  max_email_size_mb : Nat
  max_retries : Nat
  timeout_seconds : Nat
deriving DecidableEq

/-- Cache fields of `DomainConfigManager` (lines 91-94): the cached
document, its load timestamp, and the remembered global settings. -/
structure CacheState where
  config_cache : Option ConfigDoc
  cache_timestamp : Option ℚ
  global_settings : GlobalSettingsDict
deriving DecidableEq

/-- Model of `DomainConfigManager._is_cache_valid` (lines 96-102): the
cache is valid when both the document and the timestamp are present and
the cache age is below the 300-second TTL. -/
def _is_cache_valid (st : CacheState) (now : ℚ) : Bool :=
  match st.config_cache, st.cache_timestamp with
  | some _, some ts => decide (now - ts < 300)
  | _, _ => false

/-- Model of `DomainConfigManager._load_config_from_s3` (lines 104-121):
the remote fetch outcome is a parameter; a missing key or any other
failure is caught inside the method and yields the empty document, so
the method never fails. -/
def _load_config_from_s3 (fetch : Option ConfigDoc) : ConfigDoc :=
  fetch.getD emptyDoc

/-- Model of `DomainConfigManager._load_config_from_env`
(lines 123-157): with no domain name or no webhook URL configured the
result is the empty document; otherwise a single-domain document is
synthesized from the legacy settings. -/
def _load_config_from_env (env : EnvConfig) : ConfigDoc :=
  if env.domain_name = "" ∨ env.target_webhook_url = "" then emptyDoc
  else
    ⟨[(env.domain_name,
       { webhook_url := env.target_webhook_url
         webhook_secret := some env.webhook_secret
         patterns := some (if env.domain_name ≠ "" then [codes ("*@" ++ env.domain_name)]
                           else [codes "*"])
         filters := some
           ⟨some env.max_email_size_mb,
            some (if env.allowed_domains ≠ ""
                  then (env.allowed_domains.splitOn ",").map codes
                  else [codes "*"]),
            some [], some []⟩
         payload_format := none
         custom_headers := none
         retry_config := none })],
     ⟨some env.max_retries, some env.timeout_seconds, some env.max_email_size_mb⟩⟩

/-- Model of `DomainConfigManager.get_config` (lines 159-176): return
the cached document while the cache is valid; otherwise load from S3,
fall back to the environment document when the loaded domain set is
empty, cache the result and remember its global settings. -/
def get_config (st : CacheState) (now : ℚ) (fetch : Option ConfigDoc) (env : EnvConfig) :
    ConfigDoc × CacheState :=
  if _is_cache_valid st now then (st.config_cache.getD emptyDoc, st)
  else
    let c0 := _load_config_from_s3 fetch
    let c := if c0.domains.isEmpty then _load_config_from_env env else c0
    (c, ⟨some c, some now, c.global_settings⟩)

/-! ## Webhook delivery (lines 610-711) -/

/-- Outcome of one HTTP POST attempt: a response with a status code, a
timeout, a transport error, or any other raised error — all three
exception arms of the Python loop merely log and fall through. -/
inductive AttemptOutcome
  | status (code : Nat)
  | timeoutErr
  | transportErr
  | otherErr
deriving DecidableEq

/-- Success test of line 658: status 200, 201 or 202. -/
def isSuccessStatus : AttemptOutcome → Bool
  | .status c => c == 200 || c == 201 || c == 202
  | _ => false

/-- Externally visible events of the delivery loop: an HTTP POST attempt
(with its index and outcome) or a backoff sleep of a given duration in
seconds. -/
inductive DeliveryEvent
  | attempt (i : Nat) (o : AttemptOutcome)
  | backoffSleep (d : ℚ)
deriving DecidableEq

/-- The backoff wait of line 702: `min(2 ** attempt + time.time() % 1,
60)` — the fractional part of the clock is the jitter. -/
def webhookWait (attempt : Nat) (t : ℚ) : ℚ :=
  min (2 ^ attempt + Int.fract t) 60

/-- The retry loop of `send_webhook` (lines 639-707), parameterized by
the outcome of each attempt and by the clock value observed when the
jitter is drawn.  `i` is the current attempt index, `r` the number of
remaining loop iterations (`max_retries - i` at entry), so the sleep
guard `attempt < max_retries - 1` of line 701 is `0 < r - 1`, i.e.
`1 < r` here.  Returns the event trace and whether an attempt
succeeded. -/
def sendWebhookLoop (outcome : Nat → AttemptOutcome) (clock : Nat → ℚ) :
    Nat → Nat → List DeliveryEvent × Bool
  | _, 0 => ([], false)
  | i, r + 1 =>
      let o := outcome i
      if isSuccessStatus o then ([.attempt i o], true)
      else
        let rest := sendWebhookLoop outcome clock (i + 1) r
        if 0 < r then
          (.attempt i o :: .backoffSleep (webhookWait i (clock i)) :: rest.1, rest.2)
        else
          (.attempt i o :: rest.1, rest.2)

/-- Model of the delivery part of `send_webhook` (lines 634-711):
`max_retries` is read from the route with default 3 (line 635); the loop
runs over attempt indices `0..max_retries-1`; if no attempt succeeded a
`WebhookDeliveryError` carrying the endpoint URL and the attempt budget
is raised (line 711), modelled as `some` error. -/
def send_webhook (config : DomainConfig) (outcome : Nat → AttemptOutcome)
    (clock : Nat → ℚ) : List DeliveryEvent × Option WebhookDeliveryError :=
  let max_retries := config.retry_config.max_retries.getD 3
  let run := sendWebhookLoop outcome clock 0 max_retries
  (run.1, if run.2 then none else some ⟨config.webhook_url, max_retries⟩)

/-- Number of HTTP POST attempts recorded in a trace. -/
def attemptCount (tr : List DeliveryEvent) : Nat :=
  tr.countP fun e => match e with | .attempt _ _ => true | _ => false

/-- Shape of a delivery trace starting at attempt index `i`: attempts
carry consecutive indices, a backoff sleep of `min(2 ^ i + j, 60)`
seconds with jitter `j` in `[0, 1)` separates every two consecutive
attempts, and the trace ends with an attempt — never with a sleep. -/
inductive BackoffShape (outcome : Nat → AttemptOutcome) : Nat → List DeliveryEvent → Prop
  | last (i : Nat) : BackoffShape outcome i [.attempt i (outcome i)]
  | step (i : Nat) (j : ℚ) (tr : List DeliveryEvent) :
      0 ≤ j → j < 1 → BackoffShape outcome (i + 1) tr →
      BackoffShape outcome i
        (.attempt i (outcome i) :: .backoffSleep (min (2 ^ i + j) 60) :: tr)

/-! ## Request headers and signing (lines 613-632) -/

/-- Assignment `m[k] = v` on a Python dict kept as an ordered
association list: an existing key keeps its position and gets the new
value, a new key is appended. -/
def dictSet : List (String × String) → String → String → List (String × String)
  | [], k, v => [(k, v)]
  | kv :: rest, k, v =>
      if kv.1 == k then (k, v) :: rest else kv :: dictSet rest k v

/-- Python `m.update(m2)`: assign every entry of `m2` into `m` in
order. -/
def dictUpdate (m m2 : List (String × String)) : List (String × String) :=
  m2.foldl (fun acc kv => dictSet acc kv.1 kv.2) m

/-- Lookup in an ordered association list. -/
def dictLookup (k : String) (m : List (String × String)) : Option String :=
  (m.find? fun kv => kv.1 == k).map fun kv => kv.2

/-- Model of the header construction of `send_webhook` (lines 616-632),
parameterized by the hex HMAC-SHA256 function (an external crypto
primitive, applied to the webhook secret as key and the serialized
payload): start from the three fixed headers, apply the route custom
headers as dict updates, then — only when the webhook secret is a
non-empty string (Python truthiness, line 626) — set the signature
header to `sha256=` followed by the hex HMAC of the payload under the
secret. -/
def sendWebhookHeaders (hmacHex : String → String → String)
    (config : DomainConfig) (correlation_id payload_json : String) :
    List (String × String) :=
  let base := [("Content-Type", "application/json"),
               ("User-Agent", "AWS-SES-Lambda-Bridge/2.0"),
               ("X-Correlation-ID", correlation_id)]
  let withCustom := dictUpdate base config.custom_headers
  if config.webhook_secret ≠ "" then
    dictSet withCustom "X-Webhook-Signature"
      ("sha256=" ++ hmacHex config.webhook_secret payload_json)
  else withCustom

/-! ## Content retrieval and the pipeline (lines 384-434, 469-549) -/

/-- The sentinel body substituted for oversized content (line 535). -/
def oversizedSentinel : EmailContent :=
  ⟨"Email too large to process", ""⟩

/-- Size check of `get_email_content` (lines 526-538): when the stored
content length exceeds `max_size_mb * 1024 * 1024` bytes the sentinel
body is returned instead of the parsed content. -/
def get_email_content (content_length : Nat) (max_size_mb : Nat)
    (parsed : EmailContent) : EmailContent :=
  if content_length > max_size_mb * 1024 * 1024 then oversizedSentinel
  else parsed

/-- Model of `process_ses_email` (lines 384-434) after metadata
extraction: resolve the route via `is_email_allowed`; with no route the
message is dropped (`none`, no webhook call); otherwise the size ceiling
is read from the route filters with default 10 (line 411), the content
is retrieved through the size check, and the webhook payload is built
and handed to `send_webhook` — `some (payload, route)` records the
delivery call. -/
def process_ses_email (gs : GlobalSettingsDict)
    (domains : List (String × DomainRuleDict)) (metadata : EmailMetadata)
    (content_length : Nat) (parsed : EmailContent) :
    Option (WebhookPayload × DomainConfig) :=
  match is_email_allowed gs domains metadata with
  | none => none
  | some cfg =>
      let max_size_mb := cfg.filters.max_size_mb.getD 10
      let content := get_email_content content_length max_size_mb parsed
      some (⟨"email_received", metadata, content⟩, cfg)

/-! ## Concrete fixtures used to instantiate the proved contracts -/

/-- A domain rule whose filters block senders matching `bad@*`. -/
def sampleRuleA : DomainRuleDict :=
  { webhook_url := "https://a.invalid/hook"
    webhook_secret := none
    patterns := some [codes "*@a.com"]
    filters := some ⟨none, none, some [codes "bad@*"], none⟩
    payload_format := none
    custom_headers := none
    retry_config := none }

/-- A domain rule with no filters. -/
def sampleRuleB : DomainRuleDict :=
  { webhook_url := "https://b.invalid/hook"
    webhook_secret := none
    patterns := some [codes "*@b.com"]
    filters := none
    payload_format := none
    custom_headers := none
    retry_config := none }

/-- A two-domain routing table. -/
def sampleDomains : List (String × DomainRuleDict) :=
  [("a.com", sampleRuleA), ("b.com", sampleRuleB)]

/-- A message whose sender is blocked by the first rule and whose
recipients hit both rules. -/
def sampleMeta : EmailMetadata :=
  { message_id := "m1"
    timestamp := "2024-01-01T00:00:00Z"
    from_address := codes "bad@x.com"
    to_addresses := [codes "u@a.com", codes "u@b.com"]
    subject := "s"
    correlation_id := "c" }

/-- The resolved route of the first sample rule under empty global
settings. -/
def sampleCfgA : DomainConfig :=
  mkDomainConfig (_merge_with_global_settings emptyGlobals sampleRuleA).1

/-- The resolved route of the second sample rule under empty global
settings. -/
def sampleCfgB : DomainConfig :=
  mkDomainConfig (_merge_with_global_settings emptyGlobals sampleRuleB).1

/-- A cached rule carrying a `retry_config` dict that is present but has
no keys filled in. -/
def cachedRule : DomainRuleDict :=
  { webhook_url := "https://example.invalid/hook"
    webhook_secret := none
    patterns := some [codes "*@example.com"]
    filters := none
    payload_format := none
    custom_headers := none
    retry_config := some ⟨none, none⟩ }

/-- A cached single-rule domains table holding `cachedRule`. -/
def cachedDomains : List (String × DomainRuleDict) :=
  [("example.com", cachedRule)]

/-- A resolved route with a retry budget of 3 attempts, no webhook
secret and no custom headers. -/
def cfgThree : DomainConfig :=
  { webhook_url := "https://w.invalid/hook"
    webhook_secret := ""
    patterns := []
    filters := emptyFilters
    payload_format := "standard"
    custom_headers := []
    retry_config := ⟨some 3, some 30⟩ }

/-- A resolved route with a retry budget of 0 attempts. -/
def cfgZero : DomainConfig :=
  { cfgThree with retry_config := ⟨some 0, some 30⟩ }

/-- A resolved route with a webhook secret configured. -/
def signedCfg : DomainConfig :=
  { cfgThree with webhook_secret := "sekrit" }

/-- A resolved route with no webhook secret whose custom headers carry
an entry named like the signature header. -/
def spoofCfg : DomainConfig :=
  { cfgThree with custom_headers := [("X-Webhook-Signature", "spoof")] }

/-- Attempt outcomes for the delivery witnesses: attempt 1 gets a 202
response, every other attempt a 500 response. -/
def sampleOutcome : Nat → AttemptOutcome :=
  fun i => if i == 1 then .status 202 else .status 500

/-- A constant clock for the delivery witnesses. -/
def sampleClock : Nat → ℚ :=
  fun _ => 0

/-- Legacy environment settings with nothing configured. -/
def emptyEnv : EnvConfig :=
  ⟨"", "", "", "", 10, 3, 30⟩

/-- A one-domain configuration document for the cache witnesses. -/
def sampleDoc : ConfigDoc :=
  ⟨[("b.com", sampleRuleB)], emptyGlobals⟩

/-! ## Helper lemmas about lowercasing and glob matching -/

theorem asciiLower_at : asciiLower 64 = 64 := by decide

theorem asciiLower_eq_at {c : Nat} : asciiLower c = 64 ↔ c = 64 := by
  unfold asciiLower; split <;> omega

theorem asciiLower_idem (c : Nat) : asciiLower (asciiLower c) = asciiLower c := by
  simp only [asciiLower]; split_ifs <;> omega

theorem lowerStr_idem (s : List Nat) : lowerStr (lowerStr s) = lowerStr s := by
  simp only [lowerStr, List.map_map]
  congr 1
  funext c
  exact asciiLower_idem c

theorem mem_at_lowerStr (s : List Nat) : 64 ∈ lowerStr s ↔ 64 ∈ s := by
  simp only [lowerStr, List.mem_map]
  constructor
  · rintro ⟨a, ha, h⟩
    rw [asciiLower_eq_at] at h
    exact h ▸ ha
  · intro h
    exact ⟨64, h, asciiLower_at⟩

theorem bne_at_asciiLower (c : Nat) : (asciiLower c != 64) = (c != 64) := by
  by_cases hc : c = 64
  · subst hc; rfl
  · have h1 : asciiLower c ≠ 64 := fun hx => hc (asciiLower_eq_at.mp hx)
    rw [Bool.eq_iff_iff, bne_iff_ne, bne_iff_ne]
    exact iff_of_true h1 hc

theorem afterLastAt_lowerStr (s : List Nat) :
    afterLastAt (lowerStr s) = lowerStr (afterLastAt s) := by
  unfold afterLastAt
  by_cases h : 64 ∈ s
  · rw [if_pos ((mem_at_lowerStr s).mpr h), if_pos h]
    simp only [lowerStr]
    rw [← List.map_reverse, List.takeWhile_map, List.map_reverse,
      show ((fun c : Nat => c != 64) ∘ asciiLower) = (fun c : Nat => c != 64) from
        funext fun c => bne_at_asciiLower c]
  · rw [if_neg (fun hx => h ((mem_at_lowerStr s).mp hx)), if_neg h]
    rfl

theorem globTokMatch_any_cons (ts : List GTok) (c : Nat) (s : List Nat) :
    globTokMatch (.anyChar :: ts) (c :: s) = globTokMatch ts s := rfl

theorem globTokMatch_any_nil (ts : List GTok) :
    globTokMatch (.anyChar :: ts) [] = false := rfl

theorem globTokMatch_star (ts : List GTok) (s : List Nat) :
    globTokMatch (.star :: ts) s = true ↔
      ∃ s1 s2, s = s1 ++ s2 ∧ globTokMatch ts s2 = true := by
  show (s.tails.any fun s2 => globTokMatch ts s2) = true ↔ _
  rw [List.any_eq_true]
  constructor
  · rintro ⟨s2, hmem, h⟩
    obtain ⟨s1, rfl⟩ := (List.mem_tails s2 s).mp hmem
    exact ⟨s1, s2, rfl, h⟩
  · rintro ⟨s1, s2, rfl, h⟩
    exact ⟨s2, (List.mem_tails s2 _).mpr ⟨s1, rfl⟩, h⟩

theorem asciiLower_star : asciiLower 42 = 42 := by decide

theorem asciiLower_qmark : asciiLower 63 = 63 := by decide

theorem lowerStr_cons (c : Nat) (s : List Nat) :
    lowerStr (c :: s) = asciiLower c :: lowerStr s := rfl

theorem lowerStr_append (s t : List Nat) :
    lowerStr (s ++ t) = lowerStr s ++ lowerStr t := by
  simp [lowerStr]

/-! ## Claim theorems about pattern matching and filtering -/

/-- Claim C6: the pattern match used for routing is case-insensitive,
the asterisk matches any run of zero or more characters, the question
mark matches exactly one character, and in particular
matching USER@Example.com against *@example.com succeeds. -/
theorem matches_pattern_glob_semantics :
    (∀ a p, matchesCI (lowerStr a) (lowerStr p) = matchesCI a p) ∧
    (∀ s ps, matchesCI s (42 :: ps) = true ↔
      ∃ s1 s2, s = s1 ++ s2 ∧ matchesCI s2 ps = true) ∧
    (∀ c s ps, matchesCI (c :: s) (63 :: ps) = matchesCI s ps) ∧
    (∀ ps, matchesCI [] (63 :: ps) = false) ∧
    matchesCI (codes "USER@Example.com") (codes "*@example.com") = true := by
  refine ⟨?_, ?_, ?_, ?_, ?_⟩
  · intro a p
    unfold matchesCI
    rw [lowerStr_idem, lowerStr_idem]
  · intro s ps
    unfold matchesCI matches_pattern fnmatchFn
    rw [lowerStr_cons, asciiLower_star,
      show parseGlob (42 :: lowerStr ps) = .star :: parseGlob (lowerStr ps) from rfl,
      globTokMatch_star]
    constructor
    · rintro ⟨t1, t2, ht, h⟩
      simp only [lowerStr] at ht
      obtain ⟨s1, s2, rfl, h1, h2⟩ := List.map_eq_append_iff.mp ht
      refine ⟨s1, s2, rfl, ?_⟩
      show globTokMatch _ (lowerStr s2) = true
      simp only [lowerStr]
      rw [h2]
      exact h
    · rintro ⟨s1, s2, rfl, h⟩
      exact ⟨lowerStr s1, lowerStr s2, lowerStr_append s1 s2, h⟩
  · intro c s ps
    unfold matchesCI matches_pattern fnmatchFn
    rw [lowerStr_cons, asciiLower_qmark,
      show parseGlob (63 :: lowerStr ps) = .anyChar :: parseGlob (lowerStr ps) from rfl,
      lowerStr_cons, globTokMatch_any_cons]
  · intro ps
    unfold matchesCI matches_pattern fnmatchFn
    rw [lowerStr_cons, asciiLower_qmark,
      show parseGlob (63 :: lowerStr ps) = .anyChar :: parseGlob (lowerStr ps) from rfl]
    exact globTokMatch_any_nil _
  · decide

/-- Claim C2: the sender filter check evaluates the four rules of the
specification in order with the first decisive rule winning —
`_passes_filters` coincides with the rule-by-rule specification function
on every sender and filter block. -/
theorem passes_filters_matches_spec (metadata : EmailMetadata) (config : DomainConfig) :
    _passes_filters metadata config = passesFiltersSpec metadata.from_address config.filters := by
  simp only [_passes_filters, passesFiltersSpec, matchesCI]
  rw [List.any_map]
  simp only [Function.comp, afterLastAt_lowerStr]
  cases hx : (config.filters.allowed_senders.getD [codes "*"] == [codes "*"]) <;>
    simp [bne, hx]

/-! ## Recipient iteration -/

theorem get_domain_config_fst_eq_find (gs : GlobalSettingsDict) (email : List Nat) :
    ∀ domains : List (String × DomainRuleDict),
      (get_domain_config_for_email gs domains email).1 =
        (domains.find? fun nr => ruleMatches email nr.2).map
          (fun nr => mkDomainConfig (_merge_with_global_settings gs nr.2).1) := by
  intro domains
  induction domains with
  | nil => rfl
  | cons hd tl ih =>
      obtain ⟨n, r⟩ := hd
      simp only [get_domain_config_for_email, List.find?_cons]
      rw [show ((r.patterns.getD []).any fun p =>
            matches_pattern (lowerStr email) (lowerStr p)) = ruleMatches email r from rfl]
      cases h : ruleMatches email r with
      | false => simp [h, ih]
      | true => simp [h]

theorem is_email_allowed_from_eq_none_iff (gs : GlobalSettingsDict)
    (domains : List (String × DomainRuleDict)) (metadata : EmailMetadata) :
    ∀ addrs, is_email_allowed_from gs domains metadata addrs = none ↔
      ∀ a ∈ addrs, resolve_and_filter gs domains metadata a = none := by
  intro addrs
  induction addrs with
  | nil => simp [is_email_allowed_from]
  | cons a rest ih =>
      rw [List.forall_mem_cons]
      cases hg : (get_domain_config_for_email gs domains a).1 with
      | none =>
          have hra : resolve_and_filter gs domains metadata a = none := by
            simp [resolve_and_filter, hg]
          simp [is_email_allowed_from, hg, hra, ih]
      | some cfg =>
          by_cases hp : _passes_filters metadata cfg
          · have hra : resolve_and_filter gs domains metadata a = some cfg := by
              simp [resolve_and_filter, hg, hp]
            simp [is_email_allowed_from, hg, hp, hra]
          · have hra : resolve_and_filter gs domains metadata a = none := by
              simp [resolve_and_filter, hg, hp]
            simp [is_email_allowed_from, hg, hp, hra, ih]

theorem is_email_allowed_from_eq_some (gs : GlobalSettingsDict)
    (domains : List (String × DomainRuleDict)) (metadata : EmailMetadata) :
    ∀ addrs cfg, is_email_allowed_from gs domains metadata addrs = some cfg →
      ∃ pre a post, addrs = pre ++ a :: post ∧
        resolve_and_filter gs domains metadata a = some cfg ∧
        ∀ b ∈ pre, resolve_and_filter gs domains metadata b = none := by
  intro addrs
  induction addrs with
  | nil => intro cfg h; exact absurd h (by simp [is_email_allowed_from])
  | cons a rest ih =>
      intro cfg h
      cases hg : (get_domain_config_for_email gs domains a).1 with
      | none =>
          rw [show is_email_allowed_from gs domains metadata (a :: rest) =
                is_email_allowed_from gs domains metadata rest from by
              simp [is_email_allowed_from, hg]] at h
          obtain ⟨pre, b, post, rfl, hres, hpre⟩ := ih cfg h
          refine ⟨a :: pre, b, post, rfl, hres, ?_⟩
          rw [List.forall_mem_cons]
          exact ⟨by simp [resolve_and_filter, hg], hpre⟩
      | some cfg0 =>
          by_cases hp : _passes_filters metadata cfg0
          · have hra : resolve_and_filter gs domains metadata a = some cfg0 := by
              simp [resolve_and_filter, hg, hp]
            rw [show is_email_allowed_from gs domains metadata (a :: rest) =
                  some cfg0 from by simp [is_email_allowed_from, hg, hp]] at h
            exact ⟨[], a, rest, rfl, hra.trans h, by simp⟩
          · have hra : resolve_and_filter gs domains metadata a = none := by
              simp [resolve_and_filter, hg, hp]
            rw [show is_email_allowed_from gs domains metadata (a :: rest) =
                  is_email_allowed_from gs domains metadata rest from by
                simp [is_email_allowed_from, hg, hp]] at h
            obtain ⟨pre, b, post, rfl, hres, hpre⟩ := ih cfg h
            refine ⟨a :: pre, b, post, rfl, hres, ?_⟩
            rw [List.forall_mem_cons]
            exact ⟨hra, hpre⟩

/-- Claim C3: `is_email_allowed` iterates the recipients in order,
resolves the first matching domain rule for each recipient, applies the
sender filters of that rule, and returns the first resolved route that
matches and passes; a recipient whose matched rule fails sender
filtering is skipped (the remaining recipients are still tried), and
`none` is returned exactly when no recipient yields a passing route. -/
theorem is_email_allowed_contract (gs : GlobalSettingsDict)
    (domains : List (String × DomainRuleDict)) (metadata : EmailMetadata) :
    (∀ addr, (get_domain_config_for_email gs domains addr).1 =
      (domains.find? fun nr => ruleMatches addr nr.2).map
        (fun nr => mkDomainConfig (_merge_with_global_settings gs nr.2).1)) ∧
    (is_email_allowed gs domains metadata = none ↔
      ∀ a ∈ metadata.to_addresses, resolve_and_filter gs domains metadata a = none) ∧
    (∀ cfg, is_email_allowed gs domains metadata = some cfg →
      ∃ pre a post, metadata.to_addresses = pre ++ a :: post ∧
        resolve_and_filter gs domains metadata a = some cfg ∧
        ∀ b ∈ pre, resolve_and_filter gs domains metadata b = none) ∧
    (∀ a rest cfg, (get_domain_config_for_email gs domains a).1 = some cfg →
      _passes_filters metadata cfg = false →
      is_email_allowed_from gs domains metadata (a :: rest) =
        is_email_allowed_from gs domains metadata rest) := by
  refine ⟨fun addr => get_domain_config_fst_eq_find gs addr domains,
    is_email_allowed_from_eq_none_iff gs domains metadata metadata.to_addresses,
    fun cfg h => is_email_allowed_from_eq_some gs domains metadata metadata.to_addresses cfg h,
    fun a rest cfg hg hp => ?_⟩
  simp [is_email_allowed_from, hg, hp]

/-- Witness for claim C3 at a concrete two-domain table: the first
recipient matches the first rule but its sender is blocked, and the
message is not hard-rejected — iteration continues with the second
recipient. -/
theorem is_email_allowed_contract_witness :
    (get_domain_config_for_email emptyGlobals sampleDomains (codes "u@a.com")).1 =
      some sampleCfgA ∧
    _passes_filters sampleMeta sampleCfgA = false ∧
    is_email_allowed_from emptyGlobals sampleDomains sampleMeta
        (codes "u@a.com" :: [codes "u@b.com"]) =
      is_email_allowed_from emptyGlobals sampleDomains sampleMeta [codes "u@b.com"] := by
  refine ⟨by decide, by decide, ?_⟩
  exact (is_email_allowed_contract emptyGlobals sampleDomains sampleMeta).2.2.2
    (codes "u@a.com") [codes "u@b.com"] sampleCfgA (by decide) (by decide)

/-! ## Cache mutation through the shallow-copy merge -/

/-- Claim C5 evaluated on the code: a route lookup does NOT leave the
cached document unchanged.  For a cached rule whose `retry_config` dict
is present but missing `max_retries` and `timeout_seconds`, the
shallow-copy merge writes the inherited defaults into the nested dict of
the cached document: after one lookup the cached rule's `retry_config`
has become `(max_retries: 7, timeout_seconds: 9)` under global defaults
`(7, 9, 11)`, so the cached document differs from its loaded state. -/
theorem merge_mutates_cached_document :
    (get_domain_config_for_email ⟨some 7, some 9, some 11⟩ cachedDomains
        (codes "user@example.com")).2 =
      [("example.com", { cachedRule with retry_config := some ⟨some 7, some 9⟩ })] ∧
    (get_domain_config_for_email ⟨some 7, some 9, some 11⟩ cachedDomains
        (codes "user@example.com")).2 ≠ cachedDomains := by
  refine ⟨by decide, by decide⟩

/-! ## Configuration loading -/

/-- Claim C7: `get_config` never fails its caller — it always returns a
document: the cached one while the cache age is under the TTL; otherwise
the fetched document when its domain set is non-empty; on a fetch
failure or an empty domain set, the single-domain document synthesized
from the legacy environment settings; and when those are absent too, the
empty document, a valid result rather than an error. -/
theorem get_config_contract (st : CacheState) (now : ℚ) (fetch : Option ConfigDoc)
    (env : EnvConfig) :
    (∀ doc, st.config_cache = some doc → _is_cache_valid st now = true →
      (get_config st now fetch env).1 = doc) ∧
    (_is_cache_valid st now = false → ∀ doc, fetch = some doc → doc.domains ≠ [] →
      (get_config st now fetch env).1 = doc) ∧
    (_is_cache_valid st now = false → (_load_config_from_s3 fetch).domains = [] →
      env.domain_name ≠ "" → env.target_webhook_url ≠ "" →
      (get_config st now fetch env).1 = _load_config_from_env env ∧
      ((get_config st now fetch env).1).domains.length = 1) ∧
    (_is_cache_valid st now = false → (_load_config_from_s3 fetch).domains = [] →
      (env.domain_name = "" ∨ env.target_webhook_url = "") →
      (get_config st now fetch env).1 = emptyDoc) := by
  refine ⟨?_, ?_, ?_, ?_⟩
  · intro doc hdoc hvalid
    simp [get_config, hvalid, hdoc]
  · intro hvalid doc hfetch hne
    have hempty : doc.domains.isEmpty = false := by
      cases h : doc.domains.isEmpty
      · rfl
      · exact absurd (List.isEmpty_iff.mp h) hne
    simp [get_config, hvalid, _load_config_from_s3, hfetch, hempty]
  · intro hvalid hempty hdn hurl
    have hempty2 : (_load_config_from_s3 fetch).domains.isEmpty = true :=
      List.isEmpty_iff.mpr hempty
    constructor
    · simp [get_config, hvalid, hempty2]
    · simp only [get_config, hvalid, Bool.false_eq_true, if_false, hempty2, if_true]
      rw [show _load_config_from_env env =
            _load_config_from_env env from rfl]
      unfold _load_config_from_env
      rw [if_neg (by tauto)]
      rfl
  · intro hvalid hempty hnone
    have hempty2 : (_load_config_from_s3 fetch).domains.isEmpty = true :=
      List.isEmpty_iff.mpr hempty
    simp [get_config, hvalid, hempty2, _load_config_from_env, hnone]

/-- Witness for claim C7: a valid cache returns the cached document
unchanged, and with no cache, no fetched document and no legacy
environment settings the result is the empty document. -/
theorem get_config_contract_witness :
    (get_config ⟨some sampleDoc, some 0, emptyGlobals⟩ 100 none emptyEnv).1 = sampleDoc ∧
    (get_config ⟨none, none, emptyGlobals⟩ 0 none emptyEnv).1 = emptyDoc := by
  constructor
  · exact (get_config_contract ⟨some sampleDoc, some 0, emptyGlobals⟩ 100 none emptyEnv).1
      sampleDoc rfl (by norm_num [_is_cache_valid])
  · exact (get_config_contract ⟨none, none, emptyGlobals⟩ 0 none emptyEnv).2.2.2
      rfl rfl (Or.inl rfl)

/-! ## The delivery retry loop -/

theorem sendWebhookLoop_zero (outcome : Nat → AttemptOutcome) (clock : Nat → ℚ) (i : Nat) :
    sendWebhookLoop outcome clock i 0 = ([], false) := rfl

theorem sendWebhookLoop_succ_success (outcome : Nat → AttemptOutcome) (clock : Nat → ℚ)
    (i r : Nat) (h : isSuccessStatus (outcome i) = true) :
    sendWebhookLoop outcome clock i (r + 1) = ([.attempt i (outcome i)], true) := by
  simp [sendWebhookLoop, h]

theorem sendWebhookLoop_succ_fail_pos (outcome : Nat → AttemptOutcome) (clock : Nat → ℚ)
    (i r : Nat) (h : isSuccessStatus (outcome i) = false) (hr : 0 < r) :
    sendWebhookLoop outcome clock i (r + 1) =
      (.attempt i (outcome i) ::
         .backoffSleep (webhookWait i (clock i)) :: (sendWebhookLoop outcome clock (i + 1) r).1,
       (sendWebhookLoop outcome clock (i + 1) r).2) := by
  simp [sendWebhookLoop, h, hr]

theorem sendWebhookLoop_one_fail (outcome : Nat → AttemptOutcome) (clock : Nat → ℚ)
    (i : Nat) (h : isSuccessStatus (outcome i) = false) :
    sendWebhookLoop outcome clock i 1 = ([.attempt i (outcome i)], false) := by
  simp [sendWebhookLoop, h]

theorem attemptCount_nil : attemptCount [] = 0 := rfl

theorem attemptCount_attempt_cons (i : Nat) (o : AttemptOutcome) (tr : List DeliveryEvent) :
    attemptCount (.attempt i o :: tr) = attemptCount tr + 1 := by
  simp [attemptCount, List.countP_cons]

theorem attemptCount_sleep_cons (d : ℚ) (tr : List DeliveryEvent) :
    attemptCount (.backoffSleep d :: tr) = attemptCount tr := by
  simp [attemptCount, List.countP_cons]

theorem sendWebhookLoop_attemptCount_le (outcome : Nat → AttemptOutcome) (clock : Nat → ℚ) :
    ∀ r i, attemptCount (sendWebhookLoop outcome clock i r).1 ≤ r := by
  intro r
  induction r with
  | zero =>
      intro i
      rw [sendWebhookLoop_zero]
      exact Nat.le_refl 0
  | succ r ih =>
      intro i
      cases h : isSuccessStatus (outcome i) with
      | true =>
          rw [sendWebhookLoop_succ_success _ _ _ _ h]
          simp [attemptCount_attempt_cons, attemptCount_nil]
      | false =>
          cases Nat.eq_zero_or_pos r with
          | inl h0 =>
              subst h0
              rw [sendWebhookLoop_one_fail _ _ _ h]
              simp [attemptCount_attempt_cons, attemptCount_nil]
          | inr hr =>
              rw [sendWebhookLoop_succ_fail_pos _ _ _ _ h hr]
              simp only [attemptCount_attempt_cons, attemptCount_sleep_cons]
              have := ih (i + 1)
              omega

theorem sendWebhookLoop_ok_iff (outcome : Nat → AttemptOutcome) (clock : Nat → ℚ) :
    ∀ r i, (sendWebhookLoop outcome clock i r).2 = true ↔
      ∃ k, i ≤ k ∧ k < i + r ∧ isSuccessStatus (outcome k) = true := by
  intro r
  induction r with
  | zero =>
      intro i
      rw [sendWebhookLoop_zero]
      constructor
      · intro h; exact absurd h (by simp)
      · rintro ⟨k, h1, h2, _⟩; omega
  | succ r ih =>
      intro i
      cases h : isSuccessStatus (outcome i) with
      | true =>
          rw [sendWebhookLoop_succ_success _ _ _ _ h]
          exact iff_of_true rfl ⟨i, Nat.le_refl i, by omega, h⟩
      | false =>
          have hrec : (sendWebhookLoop outcome clock i (r + 1)).2 =
              (sendWebhookLoop outcome clock (i + 1) r).2 := by
            cases Nat.eq_zero_or_pos r with
            | inl h0 => subst h0; rw [sendWebhookLoop_one_fail _ _ _ h, sendWebhookLoop_zero]
            | inr hr => rw [sendWebhookLoop_succ_fail_pos _ _ _ _ h hr]
          rw [hrec, ih (i + 1)]
          constructor
          · rintro ⟨k, h1, h2, h3⟩
            exact ⟨k, by omega, by omega, h3⟩
          · rintro ⟨k, h1, h2, h3⟩
            rcases Nat.lt_or_ge i k with hlt | hge
            · exact ⟨k, by omega, by omega, h3⟩
            · have heq : i = k := by omega
              subst heq
              rw [h] at h3
              exact absurd h3 (by simp)

theorem sendWebhookLoop_all_fail (outcome : Nat → AttemptOutcome) (clock : Nat → ℚ) :
    ∀ r i, (∀ k, i ≤ k → k < i + r → isSuccessStatus (outcome k) = false) →
      (sendWebhookLoop outcome clock i r).2 = false ∧
      attemptCount (sendWebhookLoop outcome clock i r).1 = r := by
  intro r
  induction r with
  | zero =>
      intro i _
      rw [sendWebhookLoop_zero]
      exact ⟨rfl, rfl⟩
  | succ r ih =>
      intro i hall
      have hi : isSuccessStatus (outcome i) = false := hall i (Nat.le_refl i) (by omega)
      cases Nat.eq_zero_or_pos r with
      | inl h0 =>
          subst h0
          rw [sendWebhookLoop_one_fail _ _ _ hi]
          exact ⟨rfl, by simp [attemptCount_attempt_cons, attemptCount_nil]⟩
      | inr hr =>
          have h2 := ih (i + 1) (fun k hk1 hk2 => hall k (by omega) (by omega))
          constructor
          · rw [sendWebhookLoop_succ_fail_pos _ _ _ _ hi hr]
            exact h2.1
          · rw [sendWebhookLoop_succ_fail_pos _ _ _ _ hi hr]
            simp only [attemptCount_attempt_cons, attemptCount_sleep_cons]
            have := h2.2
            omega

theorem sendWebhookLoop_first_success (outcome : Nat → AttemptOutcome) (clock : Nat → ℚ) :
    ∀ r i k, i ≤ k → k < i + r → isSuccessStatus (outcome k) = true →
      (∀ j, i ≤ j → j < k → isSuccessStatus (outcome j) = false) →
      attemptCount (sendWebhookLoop outcome clock i r).1 = k + 1 - i ∧
      (sendWebhookLoop outcome clock i r).1.getLast? = some (.attempt k (outcome k)) := by
  intro r
  induction r with
  | zero =>
      intro i k h1 h2 h3 h4
      exact ((by omega : False)).elim
  | succ r ih =>
      intro i k h1 h2 h3 h4
      rcases Nat.lt_or_ge i k with hlt | hge
      · have hi : isSuccessStatus (outcome i) = false := h4 i (Nat.le_refl i) hlt
        have hr : 0 < r := by omega
        have hrec := ih (i + 1) k (by omega) (by omega) h3 (fun j hj1 hj2 => h4 j (by omega) hj2)
        constructor
        · rw [sendWebhookLoop_succ_fail_pos _ _ _ _ hi hr]
          simp only [attemptCount_attempt_cons, attemptCount_sleep_cons]
          have := hrec.1
          omega
        · rw [sendWebhookLoop_succ_fail_pos _ _ _ _ hi hr]
          show List.getLast? (_ :: _ :: _) = _
          rw [List.getLast?_cons_cons]
          cases hrest : (sendWebhookLoop outcome clock (i + 1) r).1 with
          | nil =>
              rw [hrest] at hrec
              exact absurd hrec.2 (by simp)
          | cons x xs =>
              rw [List.getLast?_cons_cons]
              have h5 := hrec.2
              rw [hrest] at h5
              exact h5
      · have heq : i = k := by omega
        subst heq
        rw [sendWebhookLoop_succ_success _ _ _ _ h3]
        refine ⟨?_, rfl⟩
        simp [attemptCount_attempt_cons, attemptCount_nil]

/-- Claim C1: `send_webhook` attempts the POST at most
`max_retries` times (default 3); it stops immediately when an attempt
returns 200, 201 or 202 — the first successful attempt is the last
event, with no further sleep or attempt; and it raises
`WebhookDeliveryError` carrying the endpoint URL and the full attempt
budget exactly when no attempt within the budget succeeded, after
exactly `max_retries` attempts. -/
theorem send_webhook_retry_contract (config : DomainConfig)
    (outcome : Nat → AttemptOutcome) (clock : Nat → ℚ) :
    attemptCount (send_webhook config outcome clock).1 ≤
      config.retry_config.max_retries.getD 3 ∧
    ((send_webhook config outcome clock).2 = none ↔
      ∃ k, k < config.retry_config.max_retries.getD 3 ∧
        isSuccessStatus (outcome k) = true) ∧
    (∀ k, k < config.retry_config.max_retries.getD 3 →
      isSuccessStatus (outcome k) = true →
      (∀ j, j < k → isSuccessStatus (outcome j) = false) →
      attemptCount (send_webhook config outcome clock).1 = k + 1 ∧
      (send_webhook config outcome clock).1.getLast? =
        some (.attempt k (outcome k))) ∧
    ((∀ k, k < config.retry_config.max_retries.getD 3 →
        isSuccessStatus (outcome k) = false) →
      (send_webhook config outcome clock).2 =
        some ⟨config.webhook_url, config.retry_config.max_retries.getD 3⟩ ∧
      attemptCount (send_webhook config outcome clock).1 =
        config.retry_config.max_retries.getD 3) := by
  have h1 : (send_webhook config outcome clock).1 =
      (sendWebhookLoop outcome clock 0 (config.retry_config.max_retries.getD 3)).1 := rfl
  have h2 : (send_webhook config outcome clock).2 =
      (if (sendWebhookLoop outcome clock 0 (config.retry_config.max_retries.getD 3)).2
       then none
       else some ⟨config.webhook_url, config.retry_config.max_retries.getD 3⟩) := rfl
  refine ⟨?_, ?_, ?_, ?_⟩
  · rw [h1]
    exact sendWebhookLoop_attemptCount_le outcome clock _ 0
  · rw [h2]
    constructor
    · intro hnone
      by_cases hl : (sendWebhookLoop outcome clock 0
          (config.retry_config.max_retries.getD 3)).2 = true
      · obtain ⟨k, hk1, hk2, hk3⟩ := (sendWebhookLoop_ok_iff outcome clock _ 0).mp hl
        exact ⟨k, by omega, hk3⟩
      · rw [if_neg hl] at hnone
        exact absurd hnone (by simp)
    · rintro ⟨k, hk1, hk3⟩
      have hl := (sendWebhookLoop_ok_iff outcome clock
          (config.retry_config.max_retries.getD 3) 0).mpr ⟨k, by omega, by omega, hk3⟩
      rw [hl]
      rfl
  · intro k hk1 hk3 hj
    have hfs := sendWebhookLoop_first_success outcome clock
      (config.retry_config.max_retries.getD 3) 0 k (by omega) (by omega) hk3
      (fun j hj1 hj2 => hj j hj2)
    constructor
    · rw [h1]
      have := hfs.1
      omega
    · rw [h1]
      exact hfs.2
  · intro hall
    have h4 := sendWebhookLoop_all_fail outcome clock
      (config.retry_config.max_retries.getD 3) 0 (fun k hk1 hk2 => hall k (by omega))
    constructor
    · rw [h2, h4.1]
      rfl
    · rw [h1]
      exact h4.2

/-- Witness for claim C1: with a budget of 3 attempts, a 500 on attempt
0 and a 202 on attempt 1, delivery performs exactly 2 attempts, ends on
the successful attempt with nothing after it, and raises nothing. -/
theorem send_webhook_retry_contract_witness :
    attemptCount (send_webhook cfgThree sampleOutcome sampleClock).1 = 2 ∧
    (send_webhook cfgThree sampleOutcome sampleClock).1.getLast? =
      some (.attempt 1 (AttemptOutcome.status 202)) ∧
    (send_webhook cfgThree sampleOutcome sampleClock).2 = none := by
  have h := send_webhook_retry_contract cfgThree sampleOutcome sampleClock
  have hc := h.2.2.1 1 (by decide) (by decide) (by decide)
  exact ⟨hc.1, hc.2, h.2.1.mpr ⟨1, by decide, by decide⟩⟩

theorem sendWebhookLoop_backoffShape (outcome : Nat → AttemptOutcome) (clock : Nat → ℚ) :
    ∀ r i, 0 < r → BackoffShape outcome i (sendWebhookLoop outcome clock i r).1 := by
  intro r
  induction r with
  | zero =>
      intro i h
      exact absurd h (by omega)
  | succ r ih =>
      intro i _
      cases h : isSuccessStatus (outcome i) with
      | true =>
          rw [sendWebhookLoop_succ_success _ _ _ _ h]
          exact .last i
      | false =>
          cases Nat.eq_zero_or_pos r with
          | inl h0 =>
              subst h0
              rw [sendWebhookLoop_one_fail _ _ _ h]
              exact .last i
          | inr hr =>
              rw [sendWebhookLoop_succ_fail_pos _ _ _ _ h hr]
              exact BackoffShape.step i (Int.fract (clock i)) _
                (Int.fract_nonneg _) (Int.fract_lt_one _) (ih (i + 1) hr)

/-- Claim C8: the delivery trace is either empty (a zero budget) or an
alternation in which a backoff sleep separates every two consecutive
attempts and never follows the last one, and the sleep before retry
`i + 1` lasts `min(2 ^ i + j, 60)` seconds for some jitter `j` in
`[0, 1)`. -/
theorem send_webhook_backoff_contract (config : DomainConfig)
    (outcome : Nat → AttemptOutcome) (clock : Nat → ℚ) :
    (send_webhook config outcome clock).1 = [] ∨
      BackoffShape outcome 0 (send_webhook config outcome clock).1 := by
  cases Nat.eq_zero_or_pos (config.retry_config.max_retries.getD 3) with
  | inl h0 =>
      left
      show (sendWebhookLoop outcome clock 0 (config.retry_config.max_retries.getD 3)).1 = []
      rw [h0]
      rfl
  | inr hp =>
      right
      exact sendWebhookLoop_backoffShape outcome clock _ 0 hp

/-- Claim C10: with `max_retries` set to 0 the delivery loop performs no
HTTP attempt at all — the event trace is empty — and immediately raises
the delivery failure reporting 0 attempts against the route URL. -/
theorem send_webhook_zero_retries (config : DomainConfig)
    (outcome : Nat → AttemptOutcome) (clock : Nat → ℚ)
    (h : config.retry_config.max_retries = some 0) :
    send_webhook config outcome clock = ([], some ⟨config.webhook_url, 0⟩) := by
  unfold send_webhook
  rw [h]
  rfl

/-- Witness for claim C10 at a concrete zero-retry route. -/
theorem send_webhook_zero_retries_witness :
    send_webhook cfgZero sampleOutcome sampleClock =
      ([], some ⟨"https://w.invalid/hook", 0⟩) :=
  send_webhook_zero_retries cfgZero sampleOutcome sampleClock rfl

/-! ## The signature header -/

theorem dictLookup_set_self (m : List (String × String)) (k v : String) :
    dictLookup k (dictSet m k v) = some v := by
  induction m with
  | nil => simp [dictSet, dictLookup]
  | cons kv rest ih =>
      cases h : (kv.1 == k) with
      | true => simp [dictSet, h, dictLookup, List.find?_cons]
      | false =>
          simp only [dictSet, h, Bool.false_eq_true, if_false]
          simp only [dictLookup, List.find?_cons, h]
          exact ih

theorem dictLookup_set_ne (m : List (String × String)) (k v k2 : String)
    (h : k ≠ k2) : dictLookup k2 (dictSet m k v) = dictLookup k2 m := by
  have hbeq : (k == k2) = false := by
    cases hb : (k == k2)
    · rfl
    · exact absurd (by simpa using hb) h
  induction m with
  | nil => simp [dictSet, dictLookup, List.find?_cons, hbeq]
  | cons kv rest ih =>
      cases hh : (kv.1 == k) with
      | true =>
          have hk1 : kv.1 = k := by simpa using hh
          simp [dictSet, hh, dictLookup, List.find?_cons, hbeq, hk1]
      | false =>
          simp only [dictSet, hh, Bool.false_eq_true, if_false]
          simp only [dictLookup, List.find?_cons] at ih ⊢
          cases hh2 : (kv.1 == k2) with
          | true => simp [hh2]
          | false =>
              simp only [hh2]
              exact ih

theorem dictLookup_update_notin (m2 : List (String × String)) :
    ∀ m k, (∀ kv ∈ m2, kv.1 ≠ k) →
      dictLookup k (dictUpdate m m2) = dictLookup k m := by
  induction m2 with
  | nil => intro m k _; rfl
  | cons kv rest ih =>
      intro m k h
      show dictLookup k (dictUpdate (dictSet m kv.1 kv.2) rest) = dictLookup k m
      rw [ih (dictSet m kv.1 kv.2) k (fun x hx => h x (List.mem_cons_of_mem kv hx))]
      exact dictLookup_set_ne m kv.1 kv.2 k (h kv (List.mem_cons_self kv rest))

/-- Counterexample to claim C4 as stated: on a route with NO webhook
secret whose custom headers carry an `X-Webhook-Signature` entry, the
built request does contain a signature header — the custom-header dict
update (line 623) can supply one even though the signing step never
ran. -/
theorem unsigned_request_signature_header_counterexample :
    spoofCfg.webhook_secret = "" ∧
    dictLookup "X-Webhook-Signature"
        (sendWebhookHeaders (fun _ _ => "") spoofCfg "cid" "body") = some "spoof" := by
  exact ⟨rfl, by decide⟩

/-- Claim C4 as amended: the signing step attaches
`X-Webhook-Signature: sha256=<hex HMAC of the serialized payload under
the secret>` exactly when the webhook secret is non-empty (overriding
any custom value); when no secret is set `send_webhook` itself adds no
signature header — the request carries one only if the route custom
headers supply it, so with no such custom entry the request has no
signature header. -/
theorem signature_header_contract (hmacHex : String → String → String)
    (config : DomainConfig) (cid pj : String) :
    (config.webhook_secret ≠ "" →
      dictLookup "X-Webhook-Signature" (sendWebhookHeaders hmacHex config cid pj) =
        some ("sha256=" ++ hmacHex config.webhook_secret pj)) ∧
    (config.webhook_secret = "" →
      (∀ kv ∈ config.custom_headers, kv.1 ≠ "X-Webhook-Signature") →
      dictLookup "X-Webhook-Signature" (sendWebhookHeaders hmacHex config cid pj) =
        none) := by
  constructor
  · intro h
    unfold sendWebhookHeaders
    rw [if_pos h]
    exact dictLookup_set_self _ _ _
  · intro h hc
    unfold sendWebhookHeaders
    rw [if_neg (by simp [h])]
    rw [dictLookup_update_notin config.custom_headers _ _ hc]
    rfl

/-- Witness for the amended claim C4: a route with secret `sekrit` gets
the formatted signature header, and a secretless route with no custom
signature entry gets none. -/
theorem signature_header_contract_witness :
    dictLookup "X-Webhook-Signature"
        (sendWebhookHeaders (fun k b => k ++ b) signedCfg "cid" "body") =
      some ("sha256=" ++ ("sekrit" ++ "body")) ∧
    dictLookup "X-Webhook-Signature"
        (sendWebhookHeaders (fun k b => k ++ b) cfgThree "cid" "body") = none := by
  constructor
  · exact (signature_header_contract (fun k b => k ++ b) signedCfg "cid" "body").1
      (by decide)
  · exact (signature_header_contract (fun k b => k ++ b) cfgThree "cid" "body").2
      rfl (by decide)

/-! ## Oversized content -/

/-- Claim C9: when the stored content length exceeds the route size
ceiling (`max_size_mb * 1024 * 1024` bytes, ceiling read with default
10), the pipeline still fires the webhook, with the sentinel body
`Email too large to process` in place of the real content — the message
is not dropped. -/
theorem oversized_content_contract (gs : GlobalSettingsDict)
    (domains : List (String × DomainRuleDict)) (metadata : EmailMetadata)
    (content_length : Nat) (parsed : EmailContent) (cfg : DomainConfig)
    (h : is_email_allowed gs domains metadata = some cfg)
    (hsize : content_length > cfg.filters.max_size_mb.getD 10 * 1024 * 1024) :
    process_ses_email gs domains metadata content_length parsed =
      some (⟨"email_received", metadata, oversizedSentinel⟩, cfg) := by
  unfold process_ses_email
  rw [h]
  simp [get_email_content, hsize]

/-- Witness for claim C9: a 10 MiB + 1 byte message on a route with the
default 10 MiB ceiling still produces a webhook call carrying the
sentinel body. -/
theorem oversized_content_contract_witness :
    process_ses_email emptyGlobals sampleDomains sampleMeta 10485761 ⟨"t", "h"⟩ =
      some (⟨"email_received", sampleMeta, oversizedSentinel⟩, sampleCfgB) := by
  exact oversized_content_contract emptyGlobals sampleDomains sampleMeta 10485761
    ⟨"t", "h"⟩ sampleCfgB (by decide) (by decide)

end WebhookReceptionist
